import Mathlib

/-!
Verification of `node-zip-stream` (files `src/zipstream.js` and its CRC-32
helper module) against its natural-language specification.

The JavaScript source is shallowly embedded: byte buffers become `List Nat`
(each element < 256), the streaming writer state becomes an explicit
`ZStream.State`, and fallible operations return
`Except (Err × State) State` — the error also carries the writer state at
the moment of the throw, mirroring the fact that a JS exception leaves the
mutated `this` behind.

Points of fidelity to the source:
* `Buffer.writeUInt16LE` / `Buffer.writeUInt32LE` validate their value range
  and throw `ERR_OUT_OF_RANGE` for out-of-range values; the embedding
  performs the same checks, in the same order as the `write*LE` calls.
* Writing to the stream after `end()` fails with `ERR_STREAM_WRITE_AFTER_END`
  (`Err.writeAfterEnd`); `flush` calls `this.end()` at its end.
* The DEFLATE compressor (`zlib.createDeflateRaw`) is not embedded: the
  chunk sequence it emits is an explicit parameter `comp` of `addFile`.
  All theorems quantify over it, so they hold for every compressor
  behaviour.  The compressed chunks are written to the sink before the data
  descriptor (the code awaits `Promise.all` of both pipeline sides first),
  so the sequential embedding writes them in order between the local file
  header and the descriptor.
-/

namespace ZStream

/-! ### CRC-32 module (`crc32.js`) -/

/-- One iteration of the CRC table generator:
`x & 1 ? (x >>> 1) ^ 0xedb88320 : x >>> 1`. -/
def crcTableStep (x : Nat) : Nat :=
  if x % 2 = 1 then (x / 2) ^^^ 0xedb88320 else x / 2

/-- `CRCTable[i]`: entry `i` starts at `i` and undergoes 8 generator steps. -/
def crcTableEntry (i : Nat) : Nat :=
  crcTableStep^[8] i

/-- One byte of the CRC loop body:
`crc32 = (crc32 >>> 8) ^ CRCTable[(crc32 ^ buffer[i]) & 0xff]`.
The accumulator is a 32-bit unsigned value, so `>>> 8` is division by 256
and `& 0xff` is `% 256`. -/
def crc32Step (c b : Nat) : Nat :=
  (c / 256) ^^^ crcTableEntry ((c ^^^ b) % 256)

/-- `crc32(buffer, seed)` from `crc32.js`: fold the loop body over the
buffer starting from `seed`, then return `~crc32 >>> 0`, which on a 32-bit
unsigned value is XOR with `0xffffffff`. -/
def crc32 (buffer : List Nat) (seed : Nat) : Nat :=
  (buffer.foldl crc32Step seed) ^^^ 0xffffffff

/-! ### Little-endian serialization (`Buffer.writeUint16LE/32LE`)

The `le16`/`le32` functions give the bytes stored for an in-range value;
the range checks Node performs (`ERR_OUT_OF_RANGE` for `value > 0xffff`
respectively `> 0xffffffff`) appear as explicit tests at the points where
the corresponding `write*LE` call happens in the source. -/

def le16 (v : Nat) : List Nat :=
  [v % 256, v / 256 % 256]

def le32 (v : Nat) : List Nat :=
  [v % 256, v / 256 % 256, v / 65536 % 256, v / 16777216 % 256]

/-! ### Filename validation

`FILENAME_RE = /^[^\\?%*:|"<>]+(?:\/[^\\?%*:|"<>]+)*$/`.

The character class excludes exactly the nine characters
`\ ? % * : | " < >` — note that `/` is *not* excluded, so the class also
matches `/` and the first `+` alone can consume a string that contains
slashes anywhere.  Consequently the regex's language is: non-empty strings
none of whose characters is one of the nine excluded characters.
Filenames are modelled as lists of Unicode code points. -/

/-- The nine characters excluded by the regex's character class:
`\` (92), `?` (63), `%` (37), `*` (42), `:` (58), `|` (124), `"` (34),
`<` (60), `>` (62). -/
def forbiddenChar (c : Nat) : Bool :=
  c = 92 || c = 63 || c = 37 || c = 42 || c = 58 || c = 124 ||
    c = 34 || c = 60 || c = 62

/-- `FILENAME_RE.test(filename)`: the regex matches exactly the non-empty
strings with no character from the excluded class. -/
def filenameTest (s : List Nat) : Bool :=
  !s.isEmpty && s.all (fun c => !forbiddenChar c)

/-- Spec-side predicate, for comparison with `filenameTest` (the
specification's words, not the source): a filename passes validation iff it
is non-empty, contains none of the nine characters, and has no empty path
segment between `/` (47) separators — i.e. splitting on `/` yields only
non-empty segments. -/
def specFilenameAccepts (s : List Nat) : Bool :=
  !s.isEmpty && s.all (fun c => !forbiddenChar c) &&
    (s.splitOn 47).all (fun seg => !seg.isEmpty)

/-! ### UTF-8 encoding (`Buffer.from(filename, "utf-8")`) -/

/-- Standard UTF-8 encoding of one code point. -/
def utf8EncodeChar (c : Nat) : List Nat :=
  if c < 0x80 then [c]
  else if c < 0x800 then [0xc0 + c / 64, 0x80 + c % 64]
  else if c < 0x10000 then
    [0xe0 + c / 4096, 0x80 + c / 64 % 64, 0x80 + c % 64]
  else
    [0xf0 + c / 262144, 0x80 + c / 4096 % 64, 0x80 + c / 64 % 64,
      0x80 + c % 64]

/-- UTF-8 encoding of a filename (`filenameBuf`). -/
def utf8Encode (s : List Nat) : List Nat :=
  (s.map utf8EncodeChar).flatten

/-! ### Writer state and the transform stream -/

/-- The mutable fields of the `ZIPStream` object together with the bytes it
has pushed downstream (`out`) and whether `end()` has been called. -/
structure State where
  bytes : Nat
  records : Nat
  cd : List Nat
  out : List Nat
  ended : Bool
  deriving Repr, DecidableEq

/-- A freshly constructed `ZIPStream`: `bytes = 0`, `records = 0`,
`cd = Buffer.alloc(0)`, nothing emitted, not ended. -/
def initial : State :=
  ⟨0, 0, [], [], false⟩

/-- Errors a `ZIPStream` operation can throw. -/
inductive Err where
  /-- `new Error("Invalid filename.")` -/
  | invalidFilename
  /-- Node `ERR_STREAM_WRITE_AFTER_END`: the stream was ended. -/
  | writeAfterEnd
  /-- Node `ERR_OUT_OF_RANGE` from `Buffer.writeUint16LE/32LE`. -/
  | outOfRange
  /-- The `fileStream` async iterator rejected. -/
  | streamError
  deriving Repr, DecidableEq

/-- `promiseWrite(this, chunk)` through `_transform`: writing after `end()`
fails with `ERR_STREAM_WRITE_AFTER_END`; otherwise `_transform` adds the
chunk's byte length to `this.bytes` and forwards the chunk downstream. -/
def pwrite (z : State) (chunk : List Nat) : Except (Err × State) State :=
  if z.ended then .error (.writeAfterEnd, z)
  else .ok { z with bytes := z.bytes + chunk.length, out := z.out ++ chunk }

/-- Write a sequence of chunks one after another (the compressor-draining
loop's `await promiseWrite(this, chunk)` per emitted chunk). -/
def pwriteAll (z : State) (chunks : List (List Nat)) :
    Except (Err × State) State :=
  match chunks with
  | [] => .ok z
  | c :: cs =>
    match pwrite z c with
    | .error e => .error e
    | .ok z' => pwriteAll z' cs

/-- Result state of an operation: the success state, or the state carried
by the thrown error (the `this` left behind by the exception). -/
def stateOf (r : Except (Err × State) State) : State :=
  match r with
  | .ok z => z
  | .error (_, z) => z

/-- The error of a failed operation, `none` on success. -/
def errOf (r : Except (Err × State) State) : Option Err :=
  match r with
  | .ok _ => none
  | .error (e, _) => some e

/-! ### The buffers addFile and flush construct

Each is written as the concatenation of its fields in offset order;
`Buffer.alloc` zero-fills, so fields the source never writes are zero. -/

/-- Local file header (30 bytes + filename), `fn` being the UTF-8 filename
bytes.  Offsets: 0 signature `0x04034b50`; 4 version-needed 20;
6 flags `COMPRESSION_FLAGS = (1<<3)|(1<<11) = 0x0808`; 8 method DEFLATE 8;
10 mod-time 0; 12 mod-date 0; 14 CRC 0; 18 compressed size 0;
22 original size 0; 26 filename length; 28 extra length 0; 30 filename. -/
def mkLfh (fn : List Nat) : List Nat :=
  le32 0x04034b50 ++ le16 20 ++ le16 0x0808 ++ le16 8 ++
    le16 0 ++ le16 0 ++ le32 0 ++ le32 0 ++ le32 0 ++
    le16 fn.length ++ le16 0 ++ fn

/-- Data descriptor (12 bytes): CRC-32 at 0, compressed size at 4,
original size at 8, each 4-byte little-endian. -/
def mkDd (crc compressed orig : Nat) : List Nat :=
  le32 crc ++ le32 compressed ++ le32 orig

/-- Central directory file header (46 bytes + filename).  The source writes
offsets 0 (signature `0x02014b50`), 6 (version-needed 20), 8 (flags),
10 (method), 16 (CRC), 20 (compressed size), 24 (original size),
28 (filename length), 42 (local header start offset) and copies the
filename at 46; every other field stays zero from `Buffer.alloc`. -/
def mkCdfh (fn : List Nat) (crc compressed orig start : Nat) : List Nat :=
  le32 0x02014b50 ++ le16 0 ++ le16 20 ++ le16 0x0808 ++ le16 8 ++
    le16 0 ++ le16 0 ++ le32 crc ++ le32 compressed ++ le32 orig ++
    le16 fn.length ++ le16 0 ++ le16 0 ++ le16 0 ++ le16 0 ++
    le32 0 ++ le32 start ++ fn

/-- End-of-central-directory record (22 bytes).  The source writes offsets
0 (signature `0x06054b50`), 10 (record count, 16-bit), 12 (central
directory byte length — written as a *16-bit* value; bytes 14–15 stay
zero), 16 (central directory start offset, 32-bit); offsets 4, 6, 8 and 20
stay zero. -/
def mkEocd (records cdLen start : Nat) : List Nat :=
  le32 0x06054b50 ++ le16 0 ++ le16 0 ++ le16 0 ++ le16 records ++
    le16 cdLen ++ le16 0 ++ le32 start ++ le16 0

/-! ### addFile -/

/-- The running CRC accumulator over the content chunks, exactly as the
file-feeding loop computes it: `fileCRC32` starts at `0xffffffff` and each
chunk updates it via `fileCRC32 = crc32(chunk, fileCRC32)` — i.e. the
*inverted* output of one call is used as the seed of the next. -/
def chainedCrc (content : List (List Nat)) : Nat :=
  content.foldl (fun c chunk => crc32 chunk c) 0xffffffff

/-- `addFile(filename, fileStream)` where the content arrived as the chunk
list `content` and the compressor emitted the chunk list `comp`.

Control flow of the source, in order: the `FILENAME_RE` test (throws
`Invalid filename.`); `start = this.bytes`; `this.records++`; building the
local file header (the `writeUint16LE(filenameBuf.byteLength, 26)` call
range-checks the filename length); writing it; running both pipeline sides
(accumulating `fileCRC32`, `origBytes`, `compressedBytes` and writing each
compressed chunk); building and writing the data descriptor (range checks
on CRC, compressed and original size, in `writeUint32LE` call order);
building the central directory file header (fresh range check on `start`
at offset 42) and appending it to `this.cd`. -/
def addFile (z : State) (filename : List Nat) (content comp : List (List Nat)) :
    Except (Err × State) State :=
  if filenameTest filename = false then .error (.invalidFilename, z)
  else
    let start := z.bytes
    let z1 : State := { z with records := z.records + 1 }
    let fn := utf8Encode filename
    if 65536 ≤ fn.length then .error (.outOfRange, z1)
    else
      match pwrite z1 (mkLfh fn) with
      | .error e => .error e
      | .ok z2 =>
        let fileCRC32 := chainedCrc content
        let origBytes := (content.map List.length).sum
        match pwriteAll z2 comp with
        | .error e => .error e
        | .ok z3 =>
          let compressedBytes := (comp.map List.length).sum
          if 4294967296 ≤ fileCRC32 then .error (.outOfRange, z3)
          else if 4294967296 ≤ compressedBytes then .error (.outOfRange, z3)
          else if 4294967296 ≤ origBytes then .error (.outOfRange, z3)
          else
            match pwrite z3 (mkDd fileCRC32 compressedBytes origBytes) with
            | .error e => .error e
            | .ok z4 =>
              if 4294967296 ≤ start then .error (.outOfRange, z4)
              else .ok { z4 with
                cd := z4.cd ++ mkCdfh fn fileCRC32 compressedBytes origBytes start }

/-- `addFile` when the `fileStream` async iterator rejects before yielding
its first chunk: validation, `records++` and the local file header write
happen as in `addFile`; the compressor receives no input and emits nothing,
`Promise.all` rejects with the stream's error, and `addFile` throws with
`this.cd` untouched. -/
def addFileStreamError (z : State) (filename : List Nat) :
    Except (Err × State) State :=
  if filenameTest filename = false then .error (.invalidFilename, z)
  else
    let z1 : State := { z with records := z.records + 1 }
    let fn := utf8Encode filename
    if 65536 ≤ fn.length then .error (.outOfRange, z1)
    else
      match pwrite z1 (mkLfh fn) with
      | .error e => .error e
      | .ok z2 => .error (.streamError, z2)

/-! ### flush -/

/-- `flush()`: capture `start = this.bytes`, write `this.cd` verbatim,
build the end-of-central-directory record (the `writeUint16LE` calls on
`this.records` and `this.cd.byteLength` and the `writeUint32LE` on `start`
range-check, in call order), write it, then `this.end()`. -/
def flush (z : State) : Except (Err × State) State :=
  let start := z.bytes
  match pwrite z z.cd with
  | .error e => .error e
  | .ok z1 =>
    if 65536 ≤ z1.records then .error (.outOfRange, z1)
    else if 65536 ≤ z1.cd.length then .error (.outOfRange, z1)
    else if 4294967296 ≤ start then .error (.outOfRange, z1)
    else
      match pwrite z1 (mkEocd z1.records z1.cd.length start) with
      | .error e => .error e
      | .ok z2 => .ok { z2 with ended := true }

/-! ### Basic lemmas about the buffers -/

lemma le16_length (v : Nat) : (le16 v).length = 2 := rfl

lemma le32_length (v : Nat) : (le32 v).length = 4 := rfl

lemma mkLfh_length (fn : List Nat) : (mkLfh fn).length = 30 + fn.length := by
  simp [mkLfh, le16, le32]; omega

lemma mkDd_length (c cl ol : Nat) : (mkDd c cl ol).length = 12 := rfl

lemma mkCdfh_length (fn : List Nat) (c cl ol st : Nat) :
    (mkCdfh fn c cl ol st).length = 46 + fn.length := by
  simp [mkCdfh, le16, le32]; omega

lemma mkEocd_length (n s o : Nat) : (mkEocd n s o).length = 22 := rfl

/-! ### Lemmas about the CRC accumulator's 32-bit range -/

lemma crcTableStep_lt {x : Nat} (h : x < 4294967296) :
    crcTableStep x < 4294967296 := by
  unfold crcTableStep
  split
  · have h1 : x / 2 < 2 ^ 32 := by omega
    have h2 : (0xedb88320 : Nat) < 2 ^ 32 := by norm_num
    have := Nat.xor_lt_two_pow h1 h2
    simpa using this
  · omega

lemma crcTableEntry_lt {i : Nat} (h : i < 4294967296) :
    crcTableEntry i < 4294967296 := by
  unfold crcTableEntry
  have : ∀ n x, x < 4294967296 → crcTableStep^[n] x < 4294967296 := by
    intro n
    induction n with
    | zero => intro x hx; simpa using hx
    | succ n ih =>
      intro x hx
      rw [Function.iterate_succ_apply]
      exact ih _ (crcTableStep_lt hx)
  exact this 8 i h

lemma crc32Step_lt {c b : Nat} (hc : c < 4294967296) :
    crc32Step c b < 4294967296 := by
  unfold crc32Step
  have h1 : c / 256 < 2 ^ 32 := by omega
  have h2 : crcTableEntry ((c ^^^ b) % 256) < 2 ^ 32 := by
    have : (c ^^^ b) % 256 < 4294967296 := by omega
    simpa using crcTableEntry_lt this
  have := Nat.xor_lt_two_pow h1 h2
  simpa using this

lemma crc32_lt {buffer : List Nat} {seed : Nat} (hs : seed < 4294967296) :
    crc32 buffer seed < 4294967296 := by
  unfold crc32
  have hfold : buffer.foldl crc32Step seed < 4294967296 := by
    induction buffer generalizing seed with
    | nil => simpa using hs
    | cons b bs ih => exact ih (crc32Step_lt hs)
  have h2 : (0xffffffff : Nat) < 2 ^ 32 := by norm_num
  have := Nat.xor_lt_two_pow (n := 32) (by simpa using hfold) h2
  simpa using this

lemma chainedCrc_lt (content : List (List Nat)) :
    chainedCrc content < 4294967296 := by
  unfold chainedCrc
  have : ∀ (cs : List (List Nat)) (seed : Nat), seed < 4294967296 →
      cs.foldl (fun c chunk => crc32 chunk c) seed < 4294967296 := by
    intro cs
    induction cs with
    | nil => intro seed hs; simpa using hs
    | cons c cs ih => intro seed hs; exact ih _ (crc32_lt hs)
  exact this content 0xffffffff (by norm_num)

/-! ### Lemmas about pwrite and pwriteAll -/

lemma pwrite_ok {z : State} (c : List Nat) (h : z.ended = false) :
    pwrite z c = .ok { z with bytes := z.bytes + c.length, out := z.out ++ c } := by
  simp [pwrite, h]

lemma pwrite_ended {z : State} (c : List Nat) (h : z.ended = true) :
    pwrite z c = .error (.writeAfterEnd, z) := by
  simp [pwrite, h]

lemma pwrite_ok_inv {z z' : State} {c : List Nat} (h : pwrite z c = .ok z') :
    z.ended = false ∧
      z' = { z with bytes := z.bytes + c.length, out := z.out ++ c } := by
  unfold pwrite at h
  split at h
  · exact absurd h (by simp)
  · next hne =>
    refine ⟨by simpa using hne, ?_⟩
    simpa using h.symm

lemma pwrite_error_inv {z w : State} {c : List Nat} {e : Err}
    (h : pwrite z c = .error (e, w)) : e = .writeAfterEnd ∧ w = z := by
  unfold pwrite at h
  split at h
  · simp only [Except.error.injEq, Prod.mk.injEq] at h
    exact ⟨h.1.symm, h.2.symm⟩
  · exact absurd h (by simp)

lemma pwriteAll_ok {z : State} (cs : List (List Nat)) (h : z.ended = false) :
    pwriteAll z cs = .ok { z with
      bytes := z.bytes + (cs.map List.length).sum,
      out := z.out ++ cs.flatten } := by
  induction cs generalizing z with
  | nil => simp [pwriteAll]
  | cons c cs ih =>
    unfold pwriteAll
    rw [pwrite_ok c h]
    dsimp only
    rw [ih (z := { z with bytes := z.bytes + c.length, out := z.out ++ c }) h]
    simp [List.flatten_cons, State.mk.injEq]
    omega

lemma pwriteAll_ok_inv {z z' : State} {cs : List (List Nat)}
    (h : pwriteAll z cs = .ok z') :
    z'.bytes = z.bytes + (cs.map List.length).sum ∧
      z'.out = z.out ++ cs.flatten ∧
      z'.records = z.records ∧ z'.cd = z.cd ∧ z'.ended = z.ended := by
  induction cs generalizing z with
  | nil =>
    unfold pwriteAll at h
    simp only [Except.ok.injEq] at h
    subst h; simp
  | cons c cs ih =>
    unfold pwriteAll at h
    split at h
    · exact absurd h (by simp)
    · next z₁ heq =>
      obtain ⟨hend, hz₁⟩ := pwrite_ok_inv heq
      obtain ⟨h1, h2, h3, h4, h5⟩ := ih h
      subst hz₁
      refine ⟨by simp at h1 ⊢; omega, by simp at h2 ⊢; simpa using h2, ?_, ?_, ?_⟩
      · simpa using h3
      · simpa using h4
      · simpa using h5

lemma pwriteAll_error_inv {z w : State} {cs : List (List Nat)} {e : Err}
    (h : pwriteAll z cs = .error (e, w)) :
    e = .writeAfterEnd ∧ w.cd = z.cd ∧ w.records = z.records := by
  induction cs generalizing z with
  | nil => exact absurd h (by simp [pwriteAll])
  | cons c cs ih =>
    unfold pwriteAll at h
    split at h
    · next heq =>
      simp only [Except.error.injEq] at h
      subst h
      obtain ⟨he, hw⟩ := pwrite_error_inv heq
      exact ⟨he, by rw [hw], by rw [hw]⟩
    · next z₁ heq =>
      obtain ⟨-, hz₁⟩ := pwrite_ok_inv heq
      obtain ⟨he, hcd, hrec⟩ := ih h
      subst hz₁
      exact ⟨he, by simpa using hcd, by simpa using hrec⟩

lemma pwriteAll_bytes_mono {z : State} (cs : List (List Nat)) :
    z.bytes ≤ (stateOf (pwriteAll z cs)).bytes := by
  induction cs generalizing z with
  | nil => simp [pwriteAll, stateOf]
  | cons c cs ih =>
    by_cases h : z.ended = true
    · simp [pwriteAll, pwrite, h, stateOf]
    · simp only [Bool.not_eq_true] at h
      unfold pwriteAll
      rw [pwrite_ok c h]
      dsimp only
      refine le_trans ?_
        (ih (z := { z with bytes := z.bytes + c.length, out := z.out ++ c }))
      simp

/-! ### Characterization of addFile and flush -/

/-- Success characterization of `addFile`: under the range and state
conditions, one `addFile` call emits the local file header, every
compressor chunk and the data descriptor, increments the record counter
and appends one central directory file header. -/
lemma addFile_ok (z : State) (fn : List Nat) (content comp : List (List Nat))
    (h1 : filenameTest fn = true) (h2 : (utf8Encode fn).length < 65536)
    (h3 : z.ended = false)
    (h4 : (content.map List.length).sum < 4294967296)
    (h5 : (comp.map List.length).sum < 4294967296)
    (h6 : z.bytes < 4294967296) :
    addFile z fn content comp = .ok
      { bytes := z.bytes + (30 + (utf8Encode fn).length) +
          (comp.map List.length).sum + 12,
        records := z.records + 1,
        cd := z.cd ++ mkCdfh (utf8Encode fn) (chainedCrc content)
            ((comp.map List.length).sum) ((content.map List.length).sum) z.bytes,
        out := z.out ++ mkLfh (utf8Encode fn) ++ comp.flatten ++
            mkDd (chainedCrc content) ((comp.map List.length).sum)
              ((content.map List.length).sum),
        ended := false } := by
  unfold addFile
  rw [h1]
  simp only [Bool.true_eq_false, if_false]
  rw [if_neg (by omega)]
  rw [pwrite_ok (z := { z with records := z.records + 1 }) (mkLfh (utf8Encode fn)) h3]
  dsimp only
  rw [pwriteAll_ok (z := { z with
        bytes := z.bytes + (mkLfh (utf8Encode fn)).length
        records := z.records + 1
        out := z.out ++ mkLfh (utf8Encode fn) }) comp h3]
  dsimp only
  rw [if_neg (by have := chainedCrc_lt content; omega)]
  rw [if_neg (by omega), if_neg (by omega)]
  rw [pwrite_ok (z := { z with
        bytes := z.bytes + (mkLfh (utf8Encode fn)).length + (comp.map List.length).sum
        records := z.records + 1
        out := z.out ++ mkLfh (utf8Encode fn) ++ comp.flatten }) _ h3]
  dsimp only
  rw [if_neg (by omega)]
  simp only [Except.ok.injEq, State.mk.injEq, mkLfh_length, mkDd_length, h3,
    List.append_assoc, and_true, true_and]

/-- Inversion: whenever `addFile` succeeds, the preconditions held and the
result state is the one `addFile_ok` describes. -/
lemma addFile_ok_inv {z z' : State} {fn : List Nat}
    {content comp : List (List Nat)}
    (h : addFile z fn content comp = .ok z') :
    filenameTest fn = true ∧ (utf8Encode fn).length < 65536 ∧
      z.ended = false ∧ (content.map List.length).sum < 4294967296 ∧
      (comp.map List.length).sum < 4294967296 ∧ z.bytes < 4294967296 ∧
      z' = { bytes := z.bytes + (30 + (utf8Encode fn).length) +
               (comp.map List.length).sum + 12,
             records := z.records + 1,
             cd := z.cd ++ mkCdfh (utf8Encode fn) (chainedCrc content)
                 ((comp.map List.length).sum) ((content.map List.length).sum)
                 z.bytes,
             out := z.out ++ mkLfh (utf8Encode fn) ++ comp.flatten ++
                 mkDd (chainedCrc content) ((comp.map List.length).sum)
                   ((content.map List.length).sum),
             ended := false } := by
  have h1 : filenameTest fn = true := by
    by_contra hc
    simp only [Bool.not_eq_true] at hc
    rw [addFile, hc] at h
    exact absurd h (by simp)
  have h2 : (utf8Encode fn).length < 65536 := by
    by_contra hc
    rw [addFile, h1] at h
    simp only [Bool.true_eq_false, if_false] at h
    rw [if_pos (by omega)] at h
    exact absurd h (by simp)
  have h3 : z.ended = false := by
    by_contra hc
    simp only [Bool.not_eq_false] at hc
    rw [addFile, h1] at h
    simp only [Bool.true_eq_false, if_false] at h
    rw [if_neg (by omega)] at h
    simp only [pwrite, hc, if_true] at h
    exact absurd h (by simp)
  rw [addFile, h1] at h
  simp only [Bool.true_eq_false, if_false] at h
  rw [if_neg (by omega)] at h
  rw [pwrite_ok (z := { z with records := z.records + 1 })
      (mkLfh (utf8Encode fn)) h3] at h
  dsimp only at h
  rw [pwriteAll_ok (z := { z with
        bytes := z.bytes + (mkLfh (utf8Encode fn)).length
        records := z.records + 1
        out := z.out ++ mkLfh (utf8Encode fn) }) comp h3] at h
  dsimp only at h
  rw [if_neg (by have := chainedCrc_lt content; omega)] at h
  by_cases h5 : (comp.map List.length).sum < 4294967296
  on_goal 2 =>
    rw [if_pos (by omega)] at h
    exact absurd h (by simp)
  by_cases h4 : (content.map List.length).sum < 4294967296
  on_goal 2 =>
    rw [if_neg (by omega), if_pos (by omega)] at h
    exact absurd h (by simp)
  rw [if_neg (by omega), if_neg (by omega)] at h
  rw [pwrite_ok (z := { z with
        bytes := z.bytes + (mkLfh (utf8Encode fn)).length + (comp.map List.length).sum
        records := z.records + 1
        out := z.out ++ mkLfh (utf8Encode fn) ++ comp.flatten }) _ h3] at h
  dsimp only at h
  by_cases h6 : z.bytes < 4294967296
  on_goal 2 =>
    rw [if_pos (by omega)] at h
    exact absurd h (by simp)
  rw [if_neg (by omega)] at h
  simp only [Except.ok.injEq] at h
  refine ⟨h1, h2, h3, h4, h5, h6, ?_⟩
  rw [← h]
  simp only [State.mk.injEq, mkLfh_length, mkDd_length, h3,
    List.append_assoc, and_true, true_and]

/-- Every error `addFile` raises after the filename test passes is a range
or stream error, never the invalid-filename error. -/
lemma addFile_error_inv {z w : State} {fn : List Nat}
    {content comp : List (List Nat)} {e : Err}
    (h1 : filenameTest fn = true)
    (h : addFile z fn content comp = .error (e, w)) :
    e = .writeAfterEnd ∨ e = .outOfRange := by
  rw [addFile, h1] at h
  simp only [Bool.true_eq_false, if_false] at h
  split at h
  · simp only [Except.error.injEq, Prod.mk.injEq] at h
    exact Or.inr h.1.symm
  · split at h
    · next heq =>
      simp only [Except.error.injEq] at h
      subst h
      exact Or.inl (pwrite_error_inv heq).1
    · split at h
      · next heq =>
        simp only [Except.error.injEq] at h
        subst h
        exact Or.inl (pwriteAll_error_inv heq).1
      · split at h
        · simp only [Except.error.injEq, Prod.mk.injEq] at h
          exact Or.inr h.1.symm
        · split at h
          · simp only [Except.error.injEq, Prod.mk.injEq] at h
            exact Or.inr h.1.symm
          · split at h
            · simp only [Except.error.injEq, Prod.mk.injEq] at h
              exact Or.inr h.1.symm
            · split at h
              · next heq =>
                simp only [Except.error.injEq] at h
                subst h
                exact Or.inl (pwrite_error_inv heq).1
              · split at h
                · simp only [Except.error.injEq, Prod.mk.injEq] at h
                  exact Or.inr h.1.symm
                · exact absurd h (by simp)

/-- The emitted-bytes counter never decreases across `addFile`, successful
or not. -/
lemma addFile_bytes_mono (z : State) (fn : List Nat)
    (content comp : List (List Nat)) :
    z.bytes ≤ (stateOf (addFile z fn content comp)).bytes := by
  unfold addFile
  split
  · simp [stateOf]
  · dsimp only
    split
    · simp [stateOf]
    · rcases hp : pwrite { z with records := z.records + 1 }
          (mkLfh (utf8Encode fn)) with ⟨e, w⟩ | z2
      · obtain ⟨-, hw⟩ := pwrite_error_inv hp
        subst hw
        simp [stateOf]
      · obtain ⟨-, hz2⟩ := pwrite_ok_inv hp
        have hb2 : z.bytes ≤ z2.bytes := by rw [hz2]; simp
        dsimp only
        rcases hq : pwriteAll z2 comp with ⟨e, w⟩ | z3
        · have hmono := pwriteAll_bytes_mono (z := z2) comp
          rw [hq] at hmono
          simp only [stateOf] at hmono ⊢
          omega
        · obtain ⟨hb3, -, -, -, hend3⟩ := pwriteAll_ok_inv hq
          have hz3 : z.bytes ≤ z3.bytes := by omega
          dsimp only
          split
          · simp only [stateOf]; omega
          · split
            · simp only [stateOf]; omega
            · split
              · simp only [stateOf]; omega
              · rcases hr : pwrite z3 (mkDd (chainedCrc content)
                    ((comp.map List.length).sum)
                    ((content.map List.length).sum)) with ⟨e, w⟩ | z4
                · obtain ⟨-, hw⟩ := pwrite_error_inv hr
                  subst hw
                  simp only [stateOf]; omega
                · obtain ⟨-, hz4⟩ := pwrite_ok_inv hr
                  have hb4 : z.bytes ≤ z4.bytes := by rw [hz4]; simp; omega
                  dsimp only
                  split
                  · simp only [stateOf]; omega
                  · simp only [stateOf]; omega

/-- Success characterization of `flush`. -/
lemma flush_ok (z : State) (h1 : z.ended = false) (h2 : z.records < 65536)
    (h3 : z.cd.length < 65536) (h4 : z.bytes < 4294967296) :
    flush z = .ok
      { bytes := z.bytes + z.cd.length + 22,
        records := z.records,
        cd := z.cd,
        out := z.out ++ z.cd ++ mkEocd z.records z.cd.length z.bytes,
        ended := true } := by
  unfold flush
  rw [pwrite_ok (z := z) z.cd h1]
  dsimp only
  rw [if_neg (by omega), if_neg (by omega), if_neg (by omega)]
  rw [pwrite_ok (z := { z with
        bytes := z.bytes + z.cd.length
        out := z.out ++ z.cd }) _ h1]
  dsimp only
  simp only [Except.ok.injEq, State.mk.injEq, mkEocd_length, and_true, true_and]

/-- `flush` never changes the central directory, the record counter never
changes, and the byte counter never decreases, successful or not. -/
lemma flush_state (z : State) :
    (stateOf (flush z)).cd = z.cd ∧
      (stateOf (flush z)).records = z.records ∧
      z.bytes ≤ (stateOf (flush z)).bytes := by
  unfold flush
  by_cases h : z.ended = true
  · rw [pwrite_ended _ h]
    simp [stateOf]
  · simp only [Bool.not_eq_true] at h
    rw [pwrite_ok (z := z) z.cd h]
    dsimp only
    split
    · refine ⟨?_, ?_, ?_⟩ <;> simp [stateOf]
    · split
      · refine ⟨?_, ?_, ?_⟩ <;> simp [stateOf]
      · split
        · refine ⟨?_, ?_, ?_⟩ <;> simp [stateOf]
        · rw [pwrite_ok (z := { z with
              bytes := z.bytes + z.cd.length
              out := z.out ++ z.cd }) _ h]
          exact ⟨by dsimp only [stateOf], by dsimp only [stateOf],
            by dsimp only [stateOf]; omega⟩

/-! ### Sequences of addFile calls -/

/-- One file to be added: its filename (code points), its content chunk
sequence, and the chunk sequence the compressor emits for it. -/
def FileInput : Type :=
  List Nat × List (List Nat) × List (List Nat)

/-- Run `addFile` for each input in order, stopping at the first error. -/
def addFiles (z : State) (fs : List FileInput) : Except (Err × State) State :=
  match fs with
  | [] => .ok z
  | (fn, content, comp) :: rest =>
    match addFile z fn content comp with
    | .error e => .error e
    | .ok z' => addFiles z' rest

/-- Bytes one successful `addFile` emits for a file: its local file header
(30 bytes plus UTF-8 filename), its compressed chunks, and its 12-byte
data descriptor. -/
def entryBytes (f : FileInput) : Nat :=
  (30 + (utf8Encode f.1).length) + (f.2.2.map List.length).sum + 12

lemma addFiles_bytes {z z' : State} {fs : List FileInput}
    (h : addFiles z fs = .ok z') :
    z'.bytes = z.bytes + (fs.map entryBytes).sum := by
  induction fs generalizing z with
  | nil =>
    unfold addFiles at h
    simp only [Except.ok.injEq] at h
    subst h; simp
  | cons f fs ih =>
    obtain ⟨fn, content, comp⟩ := f
    unfold addFiles at h
    split at h
    · exact absurd h (by simp)
    · next z₁ heq =>
      obtain ⟨-, -, -, -, -, -, hz₁⟩ := addFile_ok_inv heq
      have := ih h
      subst hz₁
      simp only [List.map_cons, List.sum_cons, entryBytes] at this ⊢
      omega

lemma filenameTest_false_iff (fn : List Nat) :
    filenameTest fn = false ↔ fn = [] ∨ fn.any forbiddenChar = true := by
  rw [← Bool.not_eq_true, filenameTest]
  simp [List.isEmpty_iff, List.all_eq_true, List.any_eq_true, not_and_or]
  tauto

/-! ### The claims -/

/-- C1 (code bug): the CRC-32 value `addFile` records in the data
descriptor does not equal the standard CRC-32 (polynomial `0xEDB88320`,
initial value `0xFFFFFFFF`, final bit-inversion — which is exactly one
whole-buffer call `crc32 data 0xffffffff`) of the concatenated content,
and it is not independent of the chunk split: `addFile` seeds each `crc32`
call with the *inverted* output of the previous call
(`fileCRC32 = crc32(chunk, fileCRC32)`), which breaks CRC chaining.
Concretely: for empty content (zero chunks) the descriptor records
`0xFFFFFFFF` while the standard CRC-32 of no bytes is `0`; and content
`"ab"` delivered as two 1-byte chunks yields a different recorded CRC —
hence different emitted bytes — than the same content in one chunk. -/
theorem crc_descriptor_not_standard :
    errOf (addFile initial [97] [] []) = none ∧
    (stateOf (addFile initial [97] [] [])).out =
      mkLfh (utf8Encode [97]) ++ mkDd 4294967295 0 0 ∧
    crc32 [] 4294967295 = 0 ∧
    chainedCrc [[97], [98]] ≠ crc32 [97, 98] 4294967295 ∧
    (stateOf (addFile initial [97] [[97], [98]] [])).out ≠
      (stateOf (addFile initial [97] [[97, 98]] [])).out := by
  decide

/-- C2 counterexample: the claim says a filename with an empty segment
between `/` separators (such as `"a//b"`) is rejected with
`InvalidFilenameError`; in the code the regex's character class does not
exclude `/`, so `"a//b"` passes `FILENAME_RE` and `addFile` succeeds,
while the specification's predicate rejects it. -/
theorem empty_segment_not_rejected :
    specFilenameAccepts [97, 47, 47, 98] = false ∧
    filenameTest [97, 47, 47, 98] = true ∧
    errOf (addFile initial [97, 47, 47, 98] [] []) = none := by
  decide

/-- C2 (amended): `addFile` fails with the invalid-filename error — before
any bytes are written and with the writer state unchanged (the error
carries the caller's state verbatim) — exactly when the filename is empty
or contains one of the nine characters `\ ? % * : | " < >`.  An empty path
segment between `/` separators is not rejected. -/
theorem addFile_invalid_filename_iff (z : State) (fn : List Nat)
    (content comp : List (List Nat)) :
    addFile z fn content comp = .error (.invalidFilename, z) ↔
      fn = [] ∨ fn.any forbiddenChar = true := by
  constructor
  · intro h
    rw [← filenameTest_false_iff]
    rcases hb : filenameTest fn with - | -
    · rfl
    · rcases addFile_error_inv hb h with h' | h' <;> exact absurd h' (by simp)
  · intro h
    have hf : filenameTest fn = false := (filenameTest_false_iff fn).mpr h
    simp [addFile, hf]

/-- C3 counterexample: the claim says a second `flush` and an `addFile`
after `flush` fail with `InvalidStateError`; the code has no such check —
both fail only when their first `promiseWrite` hits the ended stream
(Node's write-after-end error), and the failed `addFile` has already
incremented the record counter, so the writer state is not unchanged. -/
theorem flush_twice_no_invalid_state_check :
    errOf (flush (stateOf (flush initial))) = some Err.writeAfterEnd ∧
    errOf (addFile (stateOf (flush initial)) [97] [] []) =
      some Err.writeAfterEnd ∧
    (stateOf (addFile (stateOf (flush initial)) [97] [] [])).records =
      (stateOf (flush initial)).records + 1 := by
  decide

/-- C3 (amended): after a successful `flush` the stream is ended, so a
second `flush` fails with the stream's write-after-end error at its very
first write — the trailer is not written a second time and no bytes are
emitted — and `addFile` (with a valid filename) likewise fails with the
write-after-end error at its first write, after having already
incremented the record counter. -/
theorem ops_after_flush_fail (z : State) (h : z.ended = true)
    (fn : List Nat) (content comp : List (List Nat))
    (h1 : filenameTest fn = true) (h2 : (utf8Encode fn).length < 65536) :
    flush z = .error (.writeAfterEnd, z) ∧
    addFile z fn content comp =
      .error (.writeAfterEnd, { z with records := z.records + 1 }) := by
  constructor
  · unfold flush
    rw [pwrite_ended _ h]
  · unfold addFile
    rw [h1]
    simp only [Bool.true_eq_false, if_false]
    rw [if_neg (by omega)]
    rw [pwrite_ended (z := { z with records := z.records + 1 })
        (mkLfh (utf8Encode fn)) h]

/-- Witness for C3: instantiated right after `flush initial`. -/
theorem ops_after_flush_fail_witness :
    flush (stateOf (flush initial)) =
      .error (.writeAfterEnd, stateOf (flush initial)) ∧
    addFile (stateOf (flush initial)) [97] [] [] =
      .error (.writeAfterEnd,
        { stateOf (flush initial) with
            records := (stateOf (flush initial)).records + 1 }) :=
  ops_after_flush_fail (stateOf (flush initial)) (by decide) [97] [] []
    (by decide) (by decide)

/-! ### Offset bookkeeping helpers -/

lemma mkCdfh_drop42 (fn : List Nat) (c cl ol st : Nat) :
    (mkCdfh fn c cl ol st).drop 42 = le32 st ++ fn := rfl

/-- The central directory record a successful `addFile` appends carries, at
offset 42, the little-endian emitted-bytes counter captured when the local
file header began. -/
lemma addFile_cd_offset {z z' : State} {fn : List Nat}
    {content comp : List (List Nat)}
    (h : addFile z fn content comp = .ok z') :
    (z'.cd.drop (z.cd.length + 42)).take 4 = le32 z.bytes := by
  obtain ⟨-, -, -, -, -, -, hz'⟩ := addFile_ok_inv h
  subst hz'
  rw [List.drop_append, mkCdfh_drop42, List.take_left' (le32_length z.bytes)]

/-- A successful `addFile` keeps the invariant that the emitted-bytes
counter equals the length of the emitted output. -/
lemma addFile_bytes_out {z z' : State} {fn : List Nat}
    {content comp : List (List Nat)}
    (h : addFile z fn content comp = .ok z') (hpos : z.bytes = z.out.length) :
    z'.bytes = z'.out.length := by
  obtain ⟨-, -, -, -, -, -, hz'⟩ := addFile_ok_inv h
  subst hz'
  dsimp only
  simp only [List.length_append, mkLfh_length, mkDd_length,
    List.length_flatten, hpos]

/-! ### Claims C4 and C5 -/

/-- C4: the emitted-bytes counter is monotonically non-decreasing across
every operation (`addFile` — successful or not — and `flush`), and after
any sequence of successful `addFile` calls on a fresh stream it equals the
sum over the added files of local-header length (30 + filename length),
compressed chunk lengths, and the 12-byte data descriptor. -/
theorem bytes_counter_accounting :
    (∀ z fn content comp,
      z.bytes ≤ (stateOf (addFile z fn content comp)).bytes) ∧
    (∀ z, z.bytes ≤ (stateOf (flush z)).bytes) ∧
    ∀ fs z', addFiles initial fs = .ok z' →
      z'.bytes = (fs.map entryBytes).sum := by
  refine ⟨addFile_bytes_mono, fun z => (flush_state z).2.2, ?_⟩
  intro fs z' h
  have := addFiles_bytes h
  simpa [initial] using this

/-- Witness for C4: one file, filename `"a"`, no content, no compressor
output: 31 header bytes plus 12 descriptor bytes. -/
theorem bytes_counter_accounting_witness :
    (stateOf (addFile initial [97] [] [])).bytes =
      ([(([97], [], []) : FileInput)].map entryBytes).sum :=
  bytes_counter_accounting.2.2 [([97], [], [])]
    (stateOf (addFile initial [97] [] [])) rfl

/-- C5: for a successful `addFile` starting from a state whose counter
matches its output length, the startOffset recorded at offset 42 of the
new central directory record is the counter value at the moment the local
file header began, which is the byte position of that header (its
signature) in the output; the counter after `addFile` — the startOffset
any next file records — is exactly the counter after the data descriptor
completed (header + compressed data + 12); and offsets strictly
increase. -/
theorem start_offsets_recorded (z z' : State) (fn : List Nat)
    (content comp : List (List Nat))
    (h : addFile z fn content comp = .ok z')
    (hpos : z.bytes = z.out.length) :
    (z'.cd.drop (z.cd.length + 42)).take 4 = le32 z.bytes ∧
    (z'.out.drop z.bytes).take 4 = le32 0x04034b50 ∧
    z'.bytes = z.bytes + ((30 + (utf8Encode fn).length) +
      (comp.map List.length).sum + 12) ∧
    z'.bytes = z'.out.length ∧
    (∀ fn2 content2 comp2 z'',
      addFile z' fn2 content2 comp2 = .ok z'' →
      (z''.cd.drop (z'.cd.length + 42)).take 4 = le32 z'.bytes) ∧
    z.bytes < z'.bytes := by
  obtain ⟨-, -, -, -, -, -, hz'⟩ := addFile_ok_inv h
  refine ⟨addFile_cd_offset h, ?_, ?_, addFile_bytes_out h hpos,
    fun fn2 content2 comp2 z'' h2 => addFile_cd_offset h2, ?_⟩
  · subst hz'
    dsimp only
    rw [List.append_assoc, List.append_assoc, hpos, List.drop_left]
    rfl
  · subst hz'
    dsimp only
    omega
  · subst hz'
    dsimp only
    omega

/-- Witness for C5: first file `"a"` on a fresh stream. -/
theorem start_offsets_recorded_witness :
    ((stateOf (addFile initial [97] [] [])).cd.drop
        (initial.cd.length + 42)).take 4 = le32 initial.bytes ∧
    ((stateOf (addFile initial [97] [] [])).out.drop initial.bytes).take 4 =
      le32 0x04034b50 ∧
    (stateOf (addFile initial [97] [] [])).bytes =
      initial.bytes + ((30 + (utf8Encode [97]).length) +
        (([] : List (List Nat)).map List.length).sum + 12) ∧
    (stateOf (addFile initial [97] [] [])).bytes =
      (stateOf (addFile initial [97] [] [])).out.length ∧
    (∀ fn2 content2 comp2 z'',
      addFile (stateOf (addFile initial [97] [] [])) fn2 content2 comp2 =
        .ok z'' →
      (z''.cd.drop ((stateOf (addFile initial [97] [] [])).cd.length +
        42)).take 4 = le32 (stateOf (addFile initial [97] [] [])).bytes) ∧
    initial.bytes < (stateOf (addFile initial [97] [] [])).bytes :=
  start_offsets_recorded initial (stateOf (addFile initial [97] [] []))
    [97] [] [] rfl rfl

/-! ### Claim C6 -/

lemma flush_cd_too_long {z : State} (h1 : z.ended = false)
    (h2 : z.records < 65536) (h3 : 65536 ≤ z.cd.length) :
    flush z = .error (.outOfRange,
      { z with bytes := z.bytes + z.cd.length, out := z.out ++ z.cd }) := by
  unfold flush
  rw [pwrite_ok z.cd h1]
  dsimp only
  rw [if_neg (by omega), if_pos (by omega)]

/-- C6 (amended): when the stream is not ended and the
end-of-central-directory fields are representable — fewer than 65536
records, central directory shorter than 65536 bytes (the source stores the
size field with `writeUint16LE`, which throws `ERR_OUT_OF_RANGE` at 65536),
and a counter below `2^32` — `flush` writes the accumulated central
directory verbatim and then the 22-byte end-of-central-directory record:
signature `0x06054b50` at offset 0, entry count at offset 10, central
directory byte length at offset 12, and the counter captured before the
central directory write at offset 16.  Zero entries (covered by the
witness) still succeed, producing only the 22-byte record. -/
theorem flush_writes_eocd (z : State) (h1 : z.ended = false)
    (h2 : z.records < 65536) (h3 : z.cd.length < 65536)
    (h4 : z.bytes < 4294967296) :
    flush z = .ok
      { bytes := z.bytes + z.cd.length + 22
        records := z.records
        cd := z.cd
        out := z.out ++ z.cd ++ mkEocd z.records z.cd.length z.bytes
        ended := true } ∧
    (mkEocd z.records z.cd.length z.bytes).length = 22 ∧
    (mkEocd z.records z.cd.length z.bytes).take 4 = le32 0x06054b50 ∧
    ((mkEocd z.records z.cd.length z.bytes).drop 10).take 2 =
      le16 z.records ∧
    ((mkEocd z.records z.cd.length z.bytes).drop 12).take 2 =
      le16 z.cd.length ∧
    ((mkEocd z.records z.cd.length z.bytes).drop 16).take 4 =
      le32 z.bytes :=
  ⟨flush_ok z h1 h2 h3 h4, mkEocd_length _ _ _, rfl, rfl, rfl, rfl⟩

/-- Witness for C6: `flush` on a fresh stream (zero entries). -/
theorem flush_writes_eocd_witness :
    flush initial = .ok
      { bytes := initial.bytes + initial.cd.length + 22
        records := initial.records
        cd := initial.cd
        out := initial.out ++ initial.cd ++
          mkEocd initial.records initial.cd.length initial.bytes
        ended := true } ∧
    (mkEocd initial.records initial.cd.length initial.bytes).length = 22 ∧
    (mkEocd initial.records initial.cd.length initial.bytes).take 4 =
      le32 0x06054b50 ∧
    ((mkEocd initial.records initial.cd.length initial.bytes).drop 10).take
      2 = le16 initial.records ∧
    ((mkEocd initial.records initial.cd.length initial.bytes).drop 12).take
      2 = le16 initial.cd.length ∧
    ((mkEocd initial.records initial.cd.length initial.bytes).drop 16).take
      4 = le32 initial.bytes :=
  flush_writes_eocd initial rfl (by decide) (by decide) (by decide)

/-- A filename of 65490 `a` characters: regex-valid, and its central
directory record is exactly 65536 bytes long. -/
def bigName : List Nat :=
  List.replicate 65490 97

lemma filenameTest_bigName : filenameTest bigName = true := by
  unfold filenameTest bigName
  rw [Bool.and_eq_true]
  refine ⟨by simp [List.isEmpty_iff, List.replicate_eq_nil_iff], ?_⟩
  rw [List.all_eq_true]
  intro c hc
  rw [List.eq_of_mem_replicate hc]
  decide

lemma flatten_replicate_singleton (n : Nat) (a : Nat) :
    (List.replicate n [a]).flatten = List.replicate n a := by
  induction n with
  | zero => rfl
  | succ n ih => simp [List.replicate_succ, ih]

lemma utf8Encode_bigName : utf8Encode bigName = List.replicate 65490 97 := by
  unfold utf8Encode bigName
  rw [List.map_replicate]
  have h97 : utf8EncodeChar 97 = [97] := rfl
  rw [h97, flatten_replicate_singleton]

lemma utf8Encode_bigName_length : (utf8Encode bigName).length = 65490 := by
  rw [utf8Encode_bigName, List.length_replicate]

/-- C6 counterexample: the claim asserts the end-of-central-directory
record is also written for central directories of 65536 bytes or more.
Adding one file named with 65490 `a` characters makes `this.cd` exactly
65536 bytes long, and `flush` then throws `ERR_OUT_OF_RANGE` from
`eocd.writeUint16LE(this.cd.byteLength, 12)` instead of writing the
record. -/
theorem flush_fails_on_large_cd :
    errOf (addFile initial bigName [] []) = none ∧
    (stateOf (addFile initial bigName [] [])).cd.length = 65536 ∧
    errOf (flush (stateOf (addFile initial bigName [] []))) =
      some Err.outOfRange := by
  have hok := addFile_ok initial bigName [] [] filenameTest_bigName
    (by rw [utf8Encode_bigName_length]; omega) rfl (by decide) (by decide)
    (by decide)
  have hcd : (stateOf (addFile initial bigName [] [])).cd.length = 65536 := by
    rw [hok]
    dsimp only [stateOf]
    rw [List.length_append, mkCdfh_length, utf8Encode_bigName_length]
    decide
  have hend : (stateOf (addFile initial bigName [] [])).ended = false := by
    rw [hok]
    rfl
  have hrec : (stateOf (addFile initial bigName [] [])).records < 65536 := by
    rw [hok]
    dsimp only [stateOf]
    decide
  refine ⟨by rw [hok]; rfl, hcd, ?_⟩
  rw [flush_cd_too_long hend hrec (by omega)]
  rfl

/-! ### Claims C7 and C8 -/

/-- C7: for every successful `addFile`, the local file header it wrote is
exactly 30 bytes plus the UTF-8 filename: signature `0x04034b50` at offset
0, version-needed 20 at offset 4, general-purpose flag with exactly bits 3
and 11 set at offset 6, method 8 (DEFLATE) at offset 8, filename byte
length at offset 26, filename bytes from offset 30, and the CRC /
compressed-size / original-size fields at offsets 14, 18, 22 all zero —
and it is the first thing `addFile` appends to the output. -/
theorem local_header_layout (z z' : State) (fn f : List Nat)
    (content comp : List (List Nat))
    (h : addFile z fn content comp = .ok z') (hf : f = utf8Encode fn) :
    z'.out = z.out ++ mkLfh f ++ comp.flatten ++
      mkDd (chainedCrc content) ((comp.map List.length).sum)
        ((content.map List.length).sum) ∧
    (mkLfh f).length = 30 + f.length ∧
    (mkLfh f).take 4 = le32 0x04034b50 ∧
    ((mkLfh f).drop 4).take 2 = le16 20 ∧
    ((mkLfh f).drop 6).take 2 = le16 (2 ^ 3 + 2 ^ 11) ∧
    ((mkLfh f).drop 8).take 2 = le16 8 ∧
    ((mkLfh f).drop 26).take 2 = le16 f.length ∧
    (mkLfh f).drop 30 = f ∧
    ((mkLfh f).drop 14).take 12 = List.replicate 12 0 := by
  obtain ⟨-, -, -, -, -, -, hz'⟩ := addFile_ok_inv h
  subst hf hz'
  exact ⟨rfl, mkLfh_length _, rfl, rfl, rfl, rfl, rfl, rfl, rfl⟩

/-- Witness for C7: file `"a"` on a fresh stream. -/
theorem local_header_layout_witness :
    (stateOf (addFile initial [97] [] [])).out =
      initial.out ++ mkLfh (utf8Encode [97]) ++
        ([] : List (List Nat)).flatten ++
        mkDd (chainedCrc []) ((([] : List (List Nat)).map List.length).sum)
          ((([] : List (List Nat)).map List.length).sum) ∧
    (mkLfh (utf8Encode [97])).length = 30 + (utf8Encode [97]).length ∧
    (mkLfh (utf8Encode [97])).take 4 = le32 0x04034b50 ∧
    ((mkLfh (utf8Encode [97])).drop 4).take 2 = le16 20 ∧
    ((mkLfh (utf8Encode [97])).drop 6).take 2 = le16 (2 ^ 3 + 2 ^ 11) ∧
    ((mkLfh (utf8Encode [97])).drop 8).take 2 = le16 8 ∧
    ((mkLfh (utf8Encode [97])).drop 26).take 2 =
      le16 (utf8Encode [97]).length ∧
    (mkLfh (utf8Encode [97])).drop 30 = utf8Encode [97] ∧
    ((mkLfh (utf8Encode [97])).drop 14).take 12 = List.replicate 12 0 :=
  local_header_layout initial (stateOf (addFile initial [97] [] []))
    [97] (utf8Encode [97]) [] [] rfl rfl

/-- C8: the data descriptor a successful `addFile` writes is exactly 12
bytes — the finalized CRC accumulator at offset 0, the compressed byte
count at offset 4, the original byte count at offset 8, each 4-byte
little-endian — and in the emitted output it comes after the local header
and all compressed chunks (the code awaits both pipeline sides via
`Promise.all` before building and writing it). -/
theorem data_descriptor_layout (z z' : State) (fn : List Nat)
    (content comp : List (List Nat)) (c cl ol : Nat)
    (h : addFile z fn content comp = .ok z')
    (hc : c = chainedCrc content) (hcl : cl = (comp.map List.length).sum)
    (hol : ol = (content.map List.length).sum) :
    z'.out = z.out ++ mkLfh (utf8Encode fn) ++ comp.flatten ++
      mkDd c cl ol ∧
    (mkDd c cl ol).length = 12 ∧
    (mkDd c cl ol).take 4 = le32 c ∧
    ((mkDd c cl ol).drop 4).take 4 = le32 cl ∧
    (mkDd c cl ol).drop 8 = le32 ol := by
  obtain ⟨-, -, -, -, -, -, hz'⟩ := addFile_ok_inv h
  subst hc hcl hol hz'
  exact ⟨rfl, rfl, rfl, rfl, rfl⟩

/-- Witness for C8: file `"a"` with content `"b"` in one chunk and one
compressed chunk `[3, 98]` on a fresh stream. -/
theorem data_descriptor_layout_witness :
    (stateOf (addFile initial [97] [[98]] [[3, 98]])).out =
      initial.out ++ mkLfh (utf8Encode [97]) ++
        ([[3, 98]] : List (List Nat)).flatten ++
        mkDd (chainedCrc [[98]])
          ((([[3, 98]] : List (List Nat)).map List.length).sum)
          ((([[98]] : List (List Nat)).map List.length).sum) ∧
    (mkDd (chainedCrc [[98]])
        ((([[3, 98]] : List (List Nat)).map List.length).sum)
        ((([[98]] : List (List Nat)).map List.length).sum)).length = 12 ∧
    (mkDd (chainedCrc [[98]])
        ((([[3, 98]] : List (List Nat)).map List.length).sum)
        ((([[98]] : List (List Nat)).map List.length).sum)).take 4 =
      le32 (chainedCrc [[98]]) ∧
    ((mkDd (chainedCrc [[98]])
        ((([[3, 98]] : List (List Nat)).map List.length).sum)
        ((([[98]] : List (List Nat)).map List.length).sum)).drop 4).take 4 =
      le32 ((([[3, 98]] : List (List Nat)).map List.length).sum) ∧
    (mkDd (chainedCrc [[98]])
        ((([[3, 98]] : List (List Nat)).map List.length).sum)
        ((([[98]] : List (List Nat)).map List.length).sum)).drop 8 =
      le32 ((([[98]] : List (List Nat)).map List.length).sum) :=
  data_descriptor_layout initial
    (stateOf (addFile initial [97] [[98]] [[3, 98]])) [97] [[98]] [[3, 98]]
    (chainedCrc [[98]]) ((([[3, 98]] : List (List Nat)).map List.length).sum)
    ((([[98]] : List (List Nat)).map List.length).sum) rfl rfl rfl rfl

/-! ### Claim C9 -/

/-- Whatever `addFile` does — succeed or fail — the previous central
directory bytes remain an unchanged prefix of the central directory:
records are only ever appended, never reordered or removed. -/
lemma addFile_cd_prefix (w : State) (fn2 : List Nat)
    (content2 comp2 : List (List Nat)) :
    (stateOf (addFile w fn2 content2 comp2)).cd.take w.cd.length = w.cd := by
  have htl : w.cd.take w.cd.length = w.cd := List.take_length w.cd
  unfold addFile
  split
  · simp [stateOf, htl]
  · dsimp only
    split
    · simp [stateOf, htl]
    · rcases hp : pwrite { w with records := w.records + 1 }
          (mkLfh (utf8Encode fn2)) with ⟨e, x⟩ | z2
      · obtain ⟨-, hx⟩ := pwrite_error_inv hp
        subst hx
        simp [stateOf, htl]
      · obtain ⟨-, hz2⟩ := pwrite_ok_inv hp
        have hcd2 : z2.cd = w.cd := by rw [hz2]
        dsimp only
        rcases hq : pwriteAll z2 comp2 with ⟨e, x⟩ | z3
        · obtain ⟨-, hx, -⟩ := pwriteAll_error_inv hq
          simp only [stateOf, hx, hcd2]
          exact htl
        · obtain ⟨-, -, -, hcd3, -⟩ := pwriteAll_ok_inv hq
          dsimp only
          split
          · simp only [stateOf, hcd3, hcd2]
            exact htl
          · split
            · simp only [stateOf, hcd3, hcd2]
              exact htl
            · split
              · simp only [stateOf, hcd3, hcd2]
                exact htl
              · rcases hr : pwrite z3 (mkDd (chainedCrc content2)
                    ((comp2.map List.length).sum)
                    ((content2.map List.length).sum)) with ⟨e, x⟩ | z4
                · obtain ⟨-, hx⟩ := pwrite_error_inv hr
                  subst hx
                  simp only [stateOf, hcd3, hcd2]
                  exact htl
                · obtain ⟨-, hz4⟩ := pwrite_ok_inv hr
                  have hcd4 : z4.cd = w.cd := by
                    rw [hz4]
                    dsimp only
                    rw [hcd3, hcd2]
                  dsimp only
                  split
                  · simp only [stateOf, hcd4]
                    exact htl
                  · simp only [stateOf, hcd4]
                    exact List.take_left w.cd _

/-- C9: a successful `addFile` appends to the central directory — after
the file's checksum and both sizes are final — exactly one record of 46
bytes plus the filename: signature `0x02014b50` at offset 0, the same
flag (bits 3 and 11), method (8), CRC, compressed size, original size and
filename length as the local header and data descriptor at offsets 8, 10,
16, 20, 24, 28, the file's startOffset at offset 42, and the filename from
offset 46; and no operation (`addFile`, successful or failed, or `flush`)
ever reorders or shortens the existing central directory bytes. -/
theorem central_directory_record (z z' : State) (fn f : List Nat)
    (content comp : List (List Nat)) (c cl ol st : Nat)
    (h : addFile z fn content comp = .ok z')
    (hf : f = utf8Encode fn) (hc : c = chainedCrc content)
    (hcl : cl = (comp.map List.length).sum)
    (hol : ol = (content.map List.length).sum) (hst : st = z.bytes) :
    z'.cd = z.cd ++ mkCdfh f c cl ol st ∧
    (mkCdfh f c cl ol st).length = 46 + f.length ∧
    (mkCdfh f c cl ol st).take 4 = le32 0x02014b50 ∧
    ((mkCdfh f c cl ol st).drop 8).take 2 = le16 (2 ^ 3 + 2 ^ 11) ∧
    ((mkCdfh f c cl ol st).drop 10).take 2 = le16 8 ∧
    ((mkCdfh f c cl ol st).drop 16).take 4 = le32 c ∧
    ((mkCdfh f c cl ol st).drop 20).take 4 = le32 cl ∧
    ((mkCdfh f c cl ol st).drop 24).take 4 = le32 ol ∧
    ((mkCdfh f c cl ol st).drop 28).take 2 = le16 f.length ∧
    ((mkCdfh f c cl ol st).drop 42).take 4 = le32 st ∧
    (mkCdfh f c cl ol st).drop 46 = f ∧
    (∀ w fn2 content2 comp2,
      (stateOf (addFile w fn2 content2 comp2)).cd.take w.cd.length =
        w.cd) ∧
    (∀ w, (stateOf (flush w)).cd = w.cd) := by
  obtain ⟨-, -, -, -, -, -, hz'⟩ := addFile_ok_inv h
  subst hf hc hcl hol hst hz'
  refine ⟨rfl, mkCdfh_length _ _ _ _ _, ?_, ?_, ?_, ?_, ?_, ?_, ?_,
    ?_, ?_, addFile_cd_prefix, fun w => (flush_state w).1⟩
  · rfl
  · rfl
  · rfl
  · rfl
  · rfl
  · rfl
  · rfl
  · rfl
  · rfl

/-- Witness for C9: file `"a"` on a fresh stream. -/
theorem central_directory_record_witness :
    (stateOf (addFile initial [97] [] [])).cd =
      initial.cd ++ mkCdfh (utf8Encode [97]) (chainedCrc [])
        ((([] : List (List Nat)).map List.length).sum)
        ((([] : List (List Nat)).map List.length).sum) initial.bytes ∧
    (mkCdfh (utf8Encode [97]) (chainedCrc [])
        ((([] : List (List Nat)).map List.length).sum)
        ((([] : List (List Nat)).map List.length).sum)
        initial.bytes).length = 46 + (utf8Encode [97]).length ∧
    (mkCdfh (utf8Encode [97]) (chainedCrc [])
        ((([] : List (List Nat)).map List.length).sum)
        ((([] : List (List Nat)).map List.length).sum)
        initial.bytes).take 4 = le32 0x02014b50 ∧
    ((mkCdfh (utf8Encode [97]) (chainedCrc [])
        ((([] : List (List Nat)).map List.length).sum)
        ((([] : List (List Nat)).map List.length).sum)
        initial.bytes).drop 8).take 2 = le16 (2 ^ 3 + 2 ^ 11) ∧
    ((mkCdfh (utf8Encode [97]) (chainedCrc [])
        ((([] : List (List Nat)).map List.length).sum)
        ((([] : List (List Nat)).map List.length).sum)
        initial.bytes).drop 10).take 2 = le16 8 ∧
    ((mkCdfh (utf8Encode [97]) (chainedCrc [])
        ((([] : List (List Nat)).map List.length).sum)
        ((([] : List (List Nat)).map List.length).sum)
        initial.bytes).drop 16).take 4 = le32 (chainedCrc []) ∧
    ((mkCdfh (utf8Encode [97]) (chainedCrc [])
        ((([] : List (List Nat)).map List.length).sum)
        ((([] : List (List Nat)).map List.length).sum)
        initial.bytes).drop 20).take 4 =
      le32 ((([] : List (List Nat)).map List.length).sum) ∧
    ((mkCdfh (utf8Encode [97]) (chainedCrc [])
        ((([] : List (List Nat)).map List.length).sum)
        ((([] : List (List Nat)).map List.length).sum)
        initial.bytes).drop 24).take 4 =
      le32 ((([] : List (List Nat)).map List.length).sum) ∧
    ((mkCdfh (utf8Encode [97]) (chainedCrc [])
        ((([] : List (List Nat)).map List.length).sum)
        ((([] : List (List Nat)).map List.length).sum)
        initial.bytes).drop 28).take 2 = le16 (utf8Encode [97]).length ∧
    ((mkCdfh (utf8Encode [97]) (chainedCrc [])
        ((([] : List (List Nat)).map List.length).sum)
        ((([] : List (List Nat)).map List.length).sum)
        initial.bytes).drop 42).take 4 = le32 initial.bytes ∧
    (mkCdfh (utf8Encode [97]) (chainedCrc [])
        ((([] : List (List Nat)).map List.length).sum)
        ((([] : List (List Nat)).map List.length).sum)
        initial.bytes).drop 46 = utf8Encode [97] ∧
    (∀ w fn2 content2 comp2,
      (stateOf (addFile w fn2 content2 comp2)).cd.take w.cd.length =
        w.cd) ∧
    (∀ w, (stateOf (flush w)).cd = w.cd) :=
  central_directory_record initial (stateOf (addFile initial [97] [] []))
    [97] (utf8Encode [97]) [] [] (chainedCrc [])
    ((([] : List (List Nat)).map List.length).sum)
    ((([] : List (List Nat)).map List.length).sum) initial.bytes
    rfl rfl rfl rfl rfl rfl

/-! ### Claim C10 -/

/-- C10: `addFile` increments the record counter right after filename
validation, before consuming any content.  If the content stream then
fails (modelled by `addFileStreamError`: the stream's iterator rejects
before its first chunk, after the local header write), the error leaves
the counter incremented while no central directory record was appended; a
subsequent `flush` therefore writes an entry count of `records + 1` into
the end-of-central-directory record while emitting the unchanged central
directory, which contains no record for the failed file — `addFile` is not
atomic on mid-stream error. -/
theorem failed_addFile_overcounts (z : State) (fn : List Nat)
    (h1 : filenameTest fn = true) (h2 : (utf8Encode fn).length < 65536)
    (h3 : z.ended = false) :
    addFileStreamError z fn = .error (.streamError,
      { z with
          bytes := z.bytes + (30 + (utf8Encode fn).length)
          records := z.records + 1
          out := z.out ++ mkLfh (utf8Encode fn) }) ∧
    (stateOf (addFileStreamError z fn)).records = z.records + 1 ∧
    (stateOf (addFileStreamError z fn)).cd = z.cd ∧
    (z.records + 1 < 65536 → z.cd.length < 65536 →
      z.bytes + (30 + (utf8Encode fn).length) < 4294967296 →
      flush (stateOf (addFileStreamError z fn)) = .ok
        { bytes := z.bytes + (30 + (utf8Encode fn).length) +
            z.cd.length + 22
          records := z.records + 1
          cd := z.cd
          out := z.out ++ mkLfh (utf8Encode fn) ++ z.cd ++
            mkEocd (z.records + 1) z.cd.length
              (z.bytes + (30 + (utf8Encode fn).length))
          ended := true } ∧
      ((mkEocd (z.records + 1) z.cd.length
          (z.bytes + (30 + (utf8Encode fn).length))).drop 10).take 2 =
        le16 (z.records + 1)) := by
  have hmain : addFileStreamError z fn = .error (.streamError,
      { z with
          bytes := z.bytes + (30 + (utf8Encode fn).length)
          records := z.records + 1
          out := z.out ++ mkLfh (utf8Encode fn) }) := by
    unfold addFileStreamError
    rw [h1]
    simp only [Bool.true_eq_false, if_false]
    rw [if_neg (by omega)]
    rw [pwrite_ok (z := { z with records := z.records + 1 })
        (mkLfh (utf8Encode fn)) h3]
    dsimp only
    rw [mkLfh_length]
  refine ⟨hmain, by rw [hmain]; rfl, by rw [hmain]; rfl, ?_⟩
  intro hr hcd hb
  rw [hmain]
  dsimp only [stateOf]
  constructor
  · rw [flush_ok (z := { z with
          bytes := z.bytes + (30 + (utf8Encode fn).length)
          records := z.records + 1
          out := z.out ++ mkLfh (utf8Encode fn) }) h3 hr hcd hb]
  · rfl

/-- Witness for C10: a failing stream for file `"a"` on a fresh stream,
then `flush`. -/
theorem failed_addFile_overcounts_witness :
    addFileStreamError initial [97] = .error (.streamError,
      { initial with
          bytes := initial.bytes + (30 + (utf8Encode [97]).length)
          records := initial.records + 1
          out := initial.out ++ mkLfh (utf8Encode [97]) }) ∧
    (stateOf (addFileStreamError initial [97])).records =
      initial.records + 1 ∧
    (stateOf (addFileStreamError initial [97])).cd = initial.cd ∧
    (initial.records + 1 < 65536 → initial.cd.length < 65536 →
      initial.bytes + (30 + (utf8Encode [97]).length) < 4294967296 →
      flush (stateOf (addFileStreamError initial [97])) = .ok
        { bytes := initial.bytes + (30 + (utf8Encode [97]).length) +
            initial.cd.length + 22
          records := initial.records + 1
          cd := initial.cd
          out := initial.out ++ mkLfh (utf8Encode [97]) ++ initial.cd ++
            mkEocd (initial.records + 1) initial.cd.length
              (initial.bytes + (30 + (utf8Encode [97]).length))
          ended := true } ∧
      ((mkEocd (initial.records + 1) initial.cd.length
          (initial.bytes + (30 + (utf8Encode [97]).length))).drop 10).take
        2 = le16 (initial.records + 1)) :=
  failed_addFile_overcounts initial [97] (by decide) (by decide) rfl

end ZStream
